import Mathlib

/-!
# Underbot: window / process abstraction layer (package `impl`)

A shallow embedding of the four source files

* `sys/Impl/process_linux.go`  (Process, Pause, Resume, suspendProcess, resumeProcess,
  findUndertale, executableNameToPid),
* `sys/Impl/keyboard_linux.go` (keyInit, Press, justPress),
* `sys/Impl/window_linux.go`   (newWindow, check, rect, WxH, GetImage, SetActive, ID),
* `sys/Impl/server_linux.go`   (ActiveWindow, EnumWindows).

Every call that leaves the package (Win32, go-ps, robotgo, time, fmt) is recorded as an
`Event` in a chronological trace, and its answer is taken from an `OS` oracle that may
depend on the whole history of calls made so far.  Package-level variables (`gamestate`,
`keycodes`) live in the `World`.  Go `error` values are `Option String` (`none` is `nil`),
`(T, error)` results are `Except String T`.
-/

namespace Underbot

/-! ## Machine integers -/

/-- Conversion to `int32` (two's complement wrap-around). -/
def wrapInt32 (x : Int) : Int := (x + 2 ^ 31) % 2 ^ 32 - 2 ^ 31

/-- Conversion to `int` (64 bit, two's complement wrap-around). -/
def wrapInt64 (x : Int) : Int := (x + 2 ^ 63) % 2 ^ 64 - 2 ^ 63

/-- Conversion to `uint32`. -/
def toUint32 (x : Int) : Nat := (x % 2 ^ 32).toNat

/-- Conversion to `uint` / `uintptr` (64 bit). -/
def toUint64 (x : Int) : Nat := (x % 2 ^ 64).toNat

/-! ## Data model -/

/-- Entry of the process list returned by `ps.Processes()`: `Pid()` and `Executable()`. -/
structure ProcessEntry where
  Pid : Int
  Executable : String
  deriving DecidableEq, Repr

/-- Win32 rectangle; the four fields are 32 bit signed integers. -/
structure RECT where
  Left : Int
  Top : Int
  Right : Int
  Bottom : Int
  deriving DecidableEq, Repr

/-- Calls that leave the package, in the order in which they are issued. -/
inductive Event where
  | getWindowThreadProcessId (hwnd : Nat)
  | processes
  | findProcess (pid : Int)
  | openProcess (access : Nat) (pid : Nat)
  | suspendThread (handle : Nat)
  | resumeThread (handle : Nat)
  | closeHandle (handle : Nat)
  | getForegroundWindow
  | setForegroundWindow (hwnd : Nat)
  | print (text : String)
  | sleep (ms : Nat)
  | keyDown (k : String)
  | keyUp (k : String)
  | storeRes (err : String)
  | enumWindows
  | getWindowRect (hwnd : Nat)
  | getDC (hwnd : Nat)
  | releaseDC (hwnd : Nat) (hdc : Nat)
  | createCompatibleDC (hdc : Nat)
  | deleteDC (hdc : Nat)
  | createCompatibleBitmap (hdc : Nat) (width : Int) (height : Int)
  | deleteObject (obj : Nat)
  | selectObject (hdc : Nat) (obj : Nat)
  | bitBlt (dst : Nat) (width : Int) (height : Int) (src : Nat)
  | getDIBits (hdc : Nat) (hbm : Nat) (lines : Nat)
  deriving DecidableEq, Repr

/-- Answers of the operating system and of the libraries outside the repository.  Each
answer may depend on the trace of calls issued before it.  Values are those of the Go
result types (`windowPid` a `uint32`, handles `uintptr`, `suspendThread`/`resumeThread`
the `DWORD` result, where `0xFFFFFFFF` reports failure). -/
structure OS where
  toLower : String → String
  windowPid : List Event → Nat → Nat
  processes : List Event → Except String (List ProcessEntry)
  findProcess : List Event → Int → Option String
  openProcess : List Event → Nat → Nat
  suspendThread : List Event → Nat → Nat
  resumeThread : List Event → Nat → Nat
  foregroundWindow : List Event → Nat
  setForegroundWindow : List Event → Nat → Bool
  enumWindows : List Event → List Nat × Option String
  getWindowRect : List Event → Nat → RECT × Option String
  getDC : List Event → Nat → Except String Nat
  createCompatibleDC : List Event → Nat → Except String Nat
  createCompatibleBitmap : List Event → Nat → Int → Int → Except String Nat
  selectObject : List Event → Nat → Nat → Nat
  bitBlt : List Event → Nat → Int → Int → Nat → Bool
  getDIBits : List Event → Nat → Nat → Nat → Nat × List Nat

/-- Package-level variables and the trace of calls issued so far. -/
structure World where
  gamestate : Int
  keycodes : List (String × String)
  trace : List Event
  deriving DecidableEq, Repr

/-- State at program start: `var gamestate = 0`, `var keycodes map[string]string` (nil). -/
def World.init : World := { gamestate := 0, keycodes := [], trace := [] }

/-- Record one call at the end of the trace. -/
def World.emit (w : World) (e : Event) : World := { w with trace := w.trace ++ [e] }

/-- Text of `errors.Wrap(err, msg)`. -/
def wrap (err : String) (msg : String) : String := msg ++ ": " ++ err

/-- Server session (`type Server struct{}`). -/
structure Server where
  deriving DecidableEq, Repr

/-- Window handle: owning server and the `HWND` (a `uintptr`). -/
structure window where
  parent : Server
  hwnd : Nat
  deriving DecidableEq, Repr

/-- The `os.Process` value used by the package: only `Pid` is read. -/
structure Process where
  Pid : Int
  deriving DecidableEq, Repr

/-! ## process_linux.go -/

def PROCESS_ALL_ACCESS : Nat := 0x1F0FFF

/-- Go `strings.Contains` on the characters of both strings. -/
def stringsContains (s sub : String) : Bool :=
  s.toList.tails.any (fun t => sub.toList.isPrefixOf t)

/-- Loop body of `executableNameToPid`: first entry whose lower-cased executable name
contains the lower-cased fragment and whose name is not `Underbot.exe`. -/
def scanProcesses (os : OS) (processName : String) : List ProcessEntry → Option Nat
  | [] => none
  | process :: rest =>
    if stringsContains (os.toLower process.Executable) (os.toLower processName)
        && process.Executable != "Underbot.exe" then
      some (toUint64 process.Pid)
    else scanProcesses os processName rest

/-- Finds the PID based on the executable name of a process. -/
def executableNameToPid (os : OS) (processName : String) (w : World) :
    Except String Nat × World :=
  let w1 := w.emit Event.processes
  match os.processes w.trace with
  | .error err => (.error (wrap err "failed to get process list"), w1)
  | .ok processes =>
    match scanProcesses os processName processes with
    | some pid => (.ok pid, w1)
    | none => (.error "could not find the process", w1)

def undertaleProcessNames : List String := ["runner", "under", "tale"]

/-- Loop of `findUndertale` over the remaining name fragments. -/
def findUndertaleLoop (os : OS) : List String → World → Except String Nat × World
  | [], w => (.error "failed to find undertale process", w)
  | processName :: rest, w =>
    match executableNameToPid os processName w with
    | (.ok pid, w1) => (.ok pid, w1)
    | (.error _, w1) => findUndertaleLoop os rest w1

/-- Gets the PID of the Undertale process. -/
def findUndertale (os : OS) (w : World) : Except String Nat × World :=
  findUndertaleLoop os undertaleProcessNames w

/-- Process gets the process of a window.  The source reads the identifier as
`xWin.winID`; the only identifier field of `window` is `hwnd`. -/
def window.Process (os : OS) (xWin : window) (w : World) : Except String Process × World :=
  let pid0 : Nat := os.windowPid w.trace xWin.hwnd
  let w1 := w.emit (Event.getWindowThreadProcessId xWin.hwnd)
  let r : Except String Nat × World :=
    if pid0 = 0 then
      match findUndertale os w1 with
      | (.error err, w2) => (.error (wrap err "failed to get pid of undertale"), w2)
      | (.ok foundPid, w2) => (.ok (toUint32 foundPid), w2)
    else (.ok pid0, w1)
  match r with
  | (.error err, w2) => (.error err, w2)
  | (.ok pid, w2) =>
    let w3 := w2.emit (Event.findProcess pid)
    match os.findProcess w2.trace pid with
    | some err => (.error (wrap err "failed to find process"), w3)
    | none => (.ok { Pid := pid }, w3)

/-- Helper `suspendProcess`: the result of `SuspendThread` is discarded. -/
def suspendProcess (os : OS) (pid : Int) (w : World) : Option String × World :=
  let handle := os.openProcess w.trace (toUint64 pid)
  let w1 := w.emit (Event.openProcess PROCESS_ALL_ACCESS (toUint64 pid))
  if handle = 0 then (some "failed to open process", w1)
  else
    let _unused := os.suspendThread w1.trace handle
    let w2 := w1.emit (Event.suspendThread handle)
    (none, w2.emit (Event.closeHandle handle))

/-- Helper `resumeProcess`: the result of `ResumeThread` is discarded. -/
def resumeProcess (os : OS) (pid : Int) (w : World) : Option String × World :=
  let handle := os.openProcess w.trace (toUint64 pid)
  let w1 := w.emit (Event.openProcess PROCESS_ALL_ACCESS (toUint64 pid))
  if handle = 0 then (some "failed to open process", w1)
  else
    let _unused := os.resumeThread w1.trace handle
    let w2 := w1.emit (Event.resumeThread handle)
    (none, w2.emit (Event.closeHandle handle))

/-- Pause suspends the game process. -/
def window.Pause (os : OS) (xWin : window) (w : World) : Option String × World :=
  if w.gamestate = 0 then
    match xWin.Process os w with
    | (.error err, w1) => (some (wrap err "failed to get process to pause"), w1)
    | (.ok proc, w1) =>
      match suspendProcess os proc.Pid w1 with
      | (some err, w2) => (some (wrap err "failed to suspend process"), w2)
      | (none, w2) => (none, { w2 with gamestate := 1 })
  else (none, w)

/-- Resume resumes the game process. -/
def window.Resume (os : OS) (xWin : window) (w : World) : Option String × World :=
  if w.gamestate = 1 then
    match xWin.Process os w with
    | (.error err, w1) => (some (wrap err "failed to get process to resume"), w1)
    | (.ok proc, w1) =>
      match resumeProcess os proc.Pid w1 with
      | (some err, w2) => (some (wrap err "failed to resume process"), w2)
      | (none, w2) => (none, { w2 with gamestate := 0 })
  else (none, w)

/-- Number of `SuspendThread` calls in a trace. -/
def countSuspend (t : List Event) : Nat :=
  t.countP (fun e => match e with
    | Event.suspendThread _ => true
    | _ => false)

/-! ## window_linux.go -/

/-- Validity check of a window: the handle must not be zero. -/
def window.check (w : window) : Option String :=
  if w.hwnd = 0 then some "invalid window handle" else none

/-- Constructor `newWindow`: returns the window together with the result of `check`. -/
def newWindow (x : Server) (hwnd : Nat) : window × Option String :=
  let win : window := { parent := x, hwnd := hwnd }
  (win, win.check)

/-- Bounding rectangle of the window (`GetWindowRect`). -/
def window.rect (os : OS) (w : window) (wd : World) : Except String RECT × World :=
  let w1 := wd.emit (Event.getWindowRect w.hwnd)
  match os.getWindowRect wd.trace w.hwnd with
  | (_, some ret) => (.error (wrap ret "failed to get window rect"), w1)
  | (r, none) => (.ok r, w1)

/-- Width and height of the window: `int(r.Right - r.Left), int(r.Bottom - r.Top)`, the
differences being taken in `int32`. -/
def window.WxH (os : OS) (w : window) (wd : World) : Except String (Int × Int) × World :=
  match w.rect os wd with
  | (.error err, w1) => (.error err, w1)
  | (.ok r, w1) => (.ok (wrapInt32 (r.Right - r.Left), wrapInt32 (r.Bottom - r.Top)), w1)

/-- Brings the window to the foreground (`SetForegroundWindow`). -/
def window.SetActive (os : OS) (w : window) (wd : World) : Option String × World :=
  let w1 := wd.emit (Event.setForegroundWindow w.hwnd)
  if !os.setForegroundWindow wd.trace w.hwnd then (some "failed to set foreground window", w1)
  else (none, w1)

/-- The `HWND` as `int`; never fails. -/
def window.ID (w : window) : Except String Int := .ok (wrapInt64 w.hwnd)

/-- Result of a Go call that may also end in a run-time panic. -/
inductive Outcome (α : Type) where
  | ok (a : α)
  | error (msg : String)
  | panic (msg : String)
  deriving DecidableEq, Repr

/-- Value of `image.Rectangle`. -/
structure Rectangle where
  MinX : Int
  MinY : Int
  MaxX : Int
  MaxY : Int
  deriving DecidableEq, Repr

def Rectangle.Dx (r : Rectangle) : Int := r.MaxX - r.MinX

def Rectangle.Dy (r : Rectangle) : Int := r.MaxY - r.MinY

/-- Library `image.Rect`: the corners are put in order. -/
def imageRect (x0 y0 x1 y1 : Int) : Rectangle :=
  let (a0, a1) := if x0 > x1 then (x1, x0) else (x0, x1)
  let (b0, b1) := if y0 > y1 then (y1, y0) else (y0, y1)
  { MinX := a0, MinY := b0, MaxX := a1, MaxY := b1 }

/-- Value of `image.RGBA`: pixel bytes, stride and bounds. -/
structure RGBA where
  Pix : List Nat
  Stride : Int
  Rect : Rectangle
  deriving DecidableEq, Repr

/-- Largest allocation the Go run time accepts on a 64 bit target. -/
def maxAlloc : Int := 2 ^ 48

/-- Built-in `make([]byte, n)`: a zeroed slice, or `none` for the run-time panic on a
negative or out-of-range length. -/
def goMake (n : Int) : Option (List Nat) :=
  if n < 0 ∨ n > maxAlloc then none else some (List.replicate n.toNat 0)

/-- Library `image.NewRGBA`: panics (`none`) when `4 * Dx * Dy` is negative or does not
fit, otherwise a zeroed image with stride `4 * Dx`. -/
def imageNewRGBA (r : Rectangle) : Option RGBA :=
  if r.Dx < 0 ∨ r.Dy < 0 ∨ 4 * r.Dx * r.Dy ≥ 2 ^ 63 then none
  else
    match goMake (4 * r.Dx * r.Dy) with
    | none => none
    | some pix => some { Pix := pix, Stride := 4 * r.Dx, Rect := r }

/-- Built-in `copy(dst, src)`: overwrites the first `min (len dst) (len src)` elements. -/
def goCopy (dst src : List Nat) : List Nat :=
  src.take dst.length ++ dst.drop src.length

/-- Record several calls in order. -/
def World.emitAll (w : World) (es : List Event) : World := { w with trace := w.trace ++ es }

/-- GetImage captures a screenshot of the window.  Deferred releases run, last registered
first, on every exit after their registration, a panic included. -/
def window.GetImage (os : OS) (w : window) (wd : World) : Outcome RGBA × World :=
  match w.rect os wd with
  | (.error err, w1) => (.error err, w1)
  | (.ok r, w1) =>
    let width := wrapInt32 (r.Right - r.Left)
    let height := wrapInt32 (r.Bottom - r.Top)
    let w2 := w1.emit (Event.getDC w.hwnd)
    match os.getDC w1.trace w.hwnd with
    | .error err => (.error (wrap err "GetDC failed"), w2)
    | .ok hdcWindow =>
      let d1 := [Event.releaseDC w.hwnd hdcWindow]
      let w3 := w2.emit (Event.createCompatibleDC hdcWindow)
      match os.createCompatibleDC w2.trace hdcWindow with
      | .error err => (.error (wrap err "CreateCompatibleDC failed"), w3.emitAll d1)
      | .ok hdcMem =>
        let d2 := Event.deleteDC hdcMem :: d1
        let w4 := w3.emit
          (Event.createCompatibleBitmap hdcWindow (wrapInt32 width) (wrapInt32 height))
        match os.createCompatibleBitmap w3.trace hdcWindow (wrapInt32 width)
            (wrapInt32 height) with
        | .error err => (.error (wrap err "CreateCompatibleBitmap failed"), w4.emitAll d2)
        | .ok hbm =>
          let d3 := Event.deleteObject hbm :: d2
          let old := os.selectObject w4.trace hdcMem hbm
          let w5 := w4.emit (Event.selectObject hdcMem hbm)
          let d4 := Event.selectObject hdcMem old :: d3
          let w6 := w5.emit
            (Event.bitBlt hdcMem (wrapInt32 width) (wrapInt32 height) hdcWindow)
          if !os.bitBlt w5.trace hdcMem (wrapInt32 width) (wrapInt32 height) hdcWindow then
            (.error "BitBlt failed", w6.emitAll d4)
          else
            match goMake (wrapInt64 (wrapInt64 (width * height) * 4)) with
            | none => (.panic "makeslice: len out of range", w6.emitAll d4)
            | some buf0 =>
              if buf0.length = 0 then
                (.panic "index out of range [0] with length 0", w6.emitAll d4)
              else
                let w7 := w6.emit (Event.getDIBits hdcMem hbm (toUint32 height))
                match os.getDIBits w6.trace hdcMem hbm (toUint32 height) with
                | (0, _) => (.error "GetDIBits failed", w7.emitAll d4)
                | (_, written) =>
                  let buf := goCopy buf0 written
                  match imageNewRGBA (imageRect 0 0 width height) with
                  | none =>
                    (.panic "image: NewRGBA Rectangle has huge or negative dimensions",
                      w7.emitAll d4)
                  | some img => (.ok { img with Pix := goCopy img.Pix buf }, w7.emitAll d4)

/-! ## server_linux.go -/

/-- ActiveWindow returns the currently active window (`GetForegroundWindow`).  The press
task spells the call `activeWindow`; the server has this one method for it. -/
def Server.ActiveWindow (os : OS) (s : Server) (wd : World) : Except String window × World :=
  let hwnd := os.foregroundWindow wd.trace
  let w1 := wd.emit Event.getForegroundWindow
  if hwnd = 0 then (.error "no active window", w1)
  else
    match newWindow s hwnd with
    | (_, some err) => (.error err, w1)
    | (win, none) => (.ok win, w1)

/-- Library `windows.EnumWindows`: the callback is invoked for each top-level window in
turn while it answers non-zero. -/
def enumDrive (cb : Nat → List window → Nat × List window) :
    List Nat → List window → List window
  | [], wins => wins
  | h :: rest, wins =>
    match cb h wins with
    | (0, wins1) => wins1
    | (_, wins1) => enumDrive cb rest wins1

/-- Callback of `EnumWindows`: keeps the window when `newWindow` succeeds, always
answers 1 (continue enumeration). -/
def enumCallback (s : Server) (h : Nat) (wins : List window) : Nat × List window :=
  match newWindow s h with
  | (win, none) => (1, wins ++ [win])
  | (_, some _) => (1, wins)

/-- EnumWindows enumerates all top-level windows. -/
def Server.EnumWindows (os : OS) (s : Server) (wd : World) :
    Except String (List window) × World :=
  let reported := os.enumWindows wd.trace
  let wins := enumDrive (enumCallback s) reported.1 []
  let w1 := wd.emit Event.enumWindows
  match reported.2 with
  | some err => (.error (wrap err "EnumWindows failed"), w1)
  | none => (.ok wins, w1)

/-! ## keyboard_linux.go -/

/-- Assignment `m[k] = v` on a Go map kept as an association list. -/
def mapInsert (m : List (String × String)) (k v : String) : List (String × String) :=
  (k, v) :: m.filter (fun p => p.1 != k)

def neededKeys : List String := ["z", "x", "up", "left", "right", "down", "enter"]

/-- Builds the key table: every needed key maps to itself. -/
def keyInit (wd : World) : Option String × World :=
  (none, { wd with keycodes := neededKeys.foldl (fun m k => mapInsert m k k) [] })

/-- No active window handling, just pressing the key on whatever window is active. -/
def window.justPress (os : OS) (_win : window) (key : String) (wd : World) :
    Option String × World :=
  let lower := os.toLower key
  match wd.keycodes.lookup lower with
  | none => (some "the key given was not included in the keycodes map", wd)
  | some k =>
    (none, ((wd.emit (Event.keyDown k)).emit (Event.sleep 40)).emit (Event.keyUp k))

/-- Body of the goroutine started by `Press`.  Assignments to the captured variable
`res` are recorded as `storeRes` events. -/
def window.pressTask (os : OS) (win : window) (key : String) (wd : World) : World :=
  let w1 := wd.emit (Event.print ("Pressing " ++ key ++ "\n"))
  match win.parent.ActiveWindow os w1 with
  | (.error err, w2) => w2.emit (Event.storeRes (wrap err "failed to get the active window"))
  | (.ok activeWin, w2) =>
    match activeWin.ID with
    | .error err =>
      w2.emit (Event.storeRes (wrap err "failed to get the ID of the active window"))
    | .ok acID =>
      match win.ID with
      | .error err => w2.emit (Event.storeRes (wrap err "failed to get the ID of the window"))
      | .ok winID =>
        if acID = winID then
          match win.justPress os key w2 with
          | (some err, w3) => w3.emit (Event.storeRes (wrap err "failed to use justPress"))
          | (none, w3) => w3
        else
          let w3 := w2.emit (Event.print "Refocusing\n")
          let w4 :=
            match win.SetActive os w3 with
            | (some err, w4) =>
              w4.emit (Event.storeRes (wrap err "failed to set the active window"))
            | (none, w4) => w4
          let w5 := w4.emit (Event.sleep 250)
          match win.justPress os key w5 with
          | (some err, w6) => w6.emit (Event.storeRes (wrap err "failed to use justPress"))
          | (none, w6) => w6

/-- Value of the captured variable `res` after the given events of the goroutine:
the last assignment, `nil` when there is none. -/
def resAfter : List Event → Option String
  | [] => none
  | e :: rest =>
    match resAfter rest with
    | some err => some err
    | none =>
      match e with
      | Event.storeRes err => some err
      | _ => none

/-- Press key in the Undertale window: starts the goroutine and returns `res` at once.
`sched` is the number of events of the goroutine that have taken place when
`return res` reads the variable; the returned world is the one in which the goroutine
has run to its end. -/
def window.Press (os : OS) (win : window) (key : String) (sched : Nat) (wd : World) :
    Option String × World :=
  let w1 := win.pressTask os key wd
  (resAfter ((w1.trace.drop wd.trace.length).take sched), w1)

/-- Entry point of the package, with its arguments. -/
inductive Call where
  | Pause (win : window)
  | Resume (win : window)
  | Process (win : window)
  | Press (win : window) (key : String) (sched : Nat)
  | keyInit
  | WxH (win : window)
  | GetImage (win : window)
  | SetActive (win : window)
  | ActiveWindow (s : Server)
  | EnumWindows (s : Server)

/-- World after one call. -/
def Call.step (os : OS) (wd : World) : Call → World
  | Call.Pause win => (win.Pause os wd).2
  | Call.Resume win => (win.Resume os wd).2
  | Call.Process win => (win.Process os wd).2
  | Call.Press win key sched => (win.Press os key sched wd).2
  | Call.keyInit => (Underbot.keyInit wd).2
  | Call.WxH win => (win.WxH os wd).2
  | Call.GetImage win => (win.GetImage os wd).2
  | Call.SetActive win => (win.SetActive os wd).2
  | Call.ActiveWindow s => (s.ActiveWindow os wd).2
  | Call.EnumWindows s => (s.EnumWindows os wd).2

/-- World after a sequence of calls, issued one after the other. -/
def runCalls (os : OS) (calls : List Call) (wd : World) : World :=
  calls.foldl (Call.step os) wd

/-- ASCII lower-casing, the restriction of `strings.ToLower` to ASCII text. -/
def asciiLower (s : String) : String := String.mk (s.toList.map Char.toLower)

/-- Sample environment in which every call succeeds: window 5 belongs to process 42 and
has the focus, its rectangle is 2 by 1 pixels. -/
def osOk : OS where
  toLower := asciiLower
  windowPid := fun _ _ => 42
  processes := fun _ => .ok [{ Pid := 42, Executable := "UNDERTALE.exe" }]
  findProcess := fun _ _ => none
  openProcess := fun _ _ => 7
  suspendThread := fun _ _ => 0
  resumeThread := fun _ _ => 1
  foregroundWindow := fun _ => 5
  setForegroundWindow := fun _ _ => true
  enumWindows := fun _ => ([5, 0, 9], none)
  getWindowRect := fun _ _ => ({ Left := 10, Top := 20, Right := 12, Bottom := 21 }, none)
  getDC := fun _ _ => .ok 100
  createCompatibleDC := fun _ _ => .ok 101
  createCompatibleBitmap := fun _ _ _ _ => .ok 102
  selectObject := fun _ _ _ => 103
  bitBlt := fun _ _ _ _ _ => true
  getDIBits := fun _ _ _ _ => (1, [1, 2, 3, 4, 5, 6, 7, 8])

/-- Sample window with handle 5. -/
def win5 : window := { parent := {}, hwnd := 5 }

/-- Environment in which the process handle opens but the suspend and resume primitives
report failure (`0xFFFFFFFF`). -/
def osPrimitiveFails : OS :=
  { osOk with suspendThread := fun _ _ => 0xFFFFFFFF, resumeThread := fun _ _ => 0xFFFFFFFF }

/-- The second world keeps the package variables of the first and extends its trace by
events that all satisfy `P`. -/
def Extends (P : Event → Bool) (w w1 : World) : Prop :=
  w1.gamestate = w.gamestate ∧ w1.keycodes = w.keycodes ∧
    ∃ es, w1.trace = w.trace ++ es ∧ ∀ e ∈ es, P e = true

/-- Calls made while resolving the owning process. -/
def isResolveCall : Event → Bool
  | Event.getWindowThreadProcessId _ => true
  | Event.processes => true
  | Event.findProcess _ => true
  | _ => false

/-- Environment whose window rectangle spans the whole `int32` range horizontally. -/
def osWideRect : OS :=
  { osOk with getWindowRect := fun _ _ =>
      ({ Left := -2147483648, Top := 0, Right := 2147483647, Bottom := 1 }, none) }

/-- Environment whose window rectangle has width 0 (right = left) and height 1; every
capture call succeeds. -/
def osZeroWidth : OS :=
  { osOk with getWindowRect := fun _ _ =>
      ({ Left := 10, Top := 20, Right := 10, Bottom := 21 }, none) }

/-- Every capture call of the environment succeeds, whatever its arguments and
history. -/
def CaptureSucceeds (os : OS) : Prop :=
  (∀ t h, ∃ hdc, os.getDC t h = .ok hdc) ∧
  (∀ t hdc, ∃ mem, os.createCompatibleDC t hdc = .ok mem) ∧
  (∀ t hdc wd ht, ∃ hbm, os.createCompatibleBitmap t hdc wd ht = .ok hbm) ∧
  (∀ t dst wd ht src, os.bitBlt t dst wd ht src = true) ∧
  (∀ t hdc hbm n, (os.getDIBits t hdc hbm n).1 ≠ 0)

/-- Match test for one name fragment: the lower-cased executable name contains the
lower-cased fragment and the name is not `Underbot.exe`. -/
def matchesFragment (os : OS) (frag : String) (p : ProcessEntry) : Bool :=
  stringsContains (os.toLower p.Executable) (os.toLower frag)
    && p.Executable != "Underbot.exe"

/-- Selection in the words of the scenario: the first process of the list that matches
any of the fragments "runner", "under", "tale". -/
def firstMatchingAny (os : OS) (ps : List ProcessEntry) : Option ProcessEntry :=
  ps.find? (fun p => matchesFragment os "runner" p || matchesFragment os "under" p
    || matchesFragment os "tale" p)

/-- Selection by fragment priority: the first process of the list that matches "runner";
when there is none, the first that matches "under"; when there is none either, the first
that matches "tale". -/
def firstByFragment (os : OS) (ps : List ProcessEntry) : Option ProcessEntry :=
  match ps.find? (matchesFragment os "runner") with
  | some p => some p
  | none =>
    match ps.find? (matchesFragment os "under") with
    | some p => some p
    | none => ps.find? (matchesFragment os "tale")

/-- Process list in which an "under" match precedes a "runner" match. -/
def twoProcesses : List ProcessEntry :=
  [{ Pid := 10, Executable := "UNDERTALE.exe" }, { Pid := 20, Executable := "runner.exe" }]

/-- Environment in which the direct PID query yields 0 and the process list is
`twoProcesses`. -/
def osFallback : OS :=
  { osOk with windowPid := fun _ _ => 0, processes := fun _ => .ok twoProcesses }

/-- Events issued by the goroutine of `Press`, from its start to its end. -/
def window.pressEvents (os : OS) (win : window) (key : String) (wd : World) : List Event :=
  (win.pressTask os key wd).trace.drop wd.trace.length

/-- Environment in which no window has the focus. -/
def osNoFocus : OS := { osOk with foregroundWindow := fun _ => 0 }

/-- Environment in which window 9 has the focus and activation requests are refused. -/
def osRefusesActivation : OS :=
  { osOk with foregroundWindow := fun _ => 9, setForegroundWindow := fun _ _ => false }

/-! ## Frame lemmas -/

theorem Extends.refl (P : Event → Bool) (w : World) : Extends P w w :=
  ⟨rfl, rfl, [], by simp, by simp⟩

theorem Extends.trans {P : Event → Bool} {a b c : World}
    (h1 : Extends P a b) (h2 : Extends P b c) : Extends P a c := by
  obtain ⟨g1, k1, es1, t1, p1⟩ := h1
  obtain ⟨g2, k2, es2, t2, p2⟩ := h2
  refine ⟨g2.trans g1, k2.trans k1, es1 ++ es2, ?_, ?_⟩
  · rw [t2, t1, List.append_assoc]
  · intro e he
    rcases List.mem_append.mp he with h | h
    · exact p1 e h
    · exact p2 e h

theorem Extends.emit {P : Event → Bool} (w : World) (e : Event) (h : P e = true) :
    Extends P w (w.emit e) :=
  ⟨rfl, rfl, [e], rfl, by simpa using h⟩

theorem Extends.emitAll {P : Event → Bool} (w : World) (es : List Event)
    (h : ∀ e ∈ es, P e = true) : Extends P w (w.emitAll es) :=
  ⟨rfl, rfl, es, rfl, h⟩

theorem executableNameToPid_world (os : OS) (name : String) (w : World) :
    (executableNameToPid os name w).2 = w.emit Event.processes := by
  unfold executableNameToPid
  simp only
  split
  · rfl
  · split <;> rfl

theorem findUndertaleLoop_frame (os : OS) (names : List String) (w : World) :
    Extends isResolveCall w (findUndertaleLoop os names w).2 := by
  induction names generalizing w with
  | nil => exact Extends.refl _ _
  | cons name rest ih =>
    unfold findUndertaleLoop
    have hw := executableNameToPid_world os name w
    have hstep : Extends isResolveCall w (w.emit Event.processes) := Extends.emit w _ rfl
    split
    · next pid w1 heq =>
      rw [heq] at hw
      simp only at hw
      rw [hw]
      exact hstep
    · next err w1 heq =>
      rw [heq] at hw
      simp only at hw
      rw [hw]
      exact hstep.trans (ih _)

theorem Process_frame (os : OS) (win : window) (w : World) :
    Extends isResolveCall w (win.Process os w).2 := by
  have h1 : Extends isResolveCall w (w.emit (Event.getWindowThreadProcessId win.hwnd)) :=
    Extends.emit w _ rfl
  have h2 := findUndertaleLoop_frame os undertaleProcessNames
    (w.emit (Event.getWindowThreadProcessId win.hwnd))
  unfold window.Process
  simp only [findUndertale]
  split
  · next err w2 heq =>
    split at heq
    · split at heq
      · next e2 w3 hf =>
        simp only [Prod.mk.injEq] at heq
        rw [← heq.2]
        rw [hf] at h2
        exact h1.trans h2
      · simp at heq
    · simp at heq
  · next pid w2 heq =>
    have hw2 : Extends isResolveCall w w2 := by
      split at heq
      · split at heq
        · simp at heq
        · next p3 w3 hf =>
          simp only [Prod.mk.injEq] at heq
          rw [← heq.2]
          rw [hf] at h2
          exact h1.trans h2
      · simp only [Prod.mk.injEq] at heq
        rw [← heq.2]
        exact h1
    have h3 : Extends isResolveCall w2 (w2.emit (Event.findProcess pid)) :=
      Extends.emit w2 _ rfl
    split
    · exact hw2.trans h3
    · exact hw2.trans h3

theorem countSuspend_append (a b : List Event) :
    countSuspend (a ++ b) = countSuspend a + countSuspend b := by
  simp [countSuspend, List.countP_append]

theorem countSuspend_of_resolve (es : List Event) (h : ∀ e ∈ es, isResolveCall e = true) :
    countSuspend es = 0 := by
  unfold countSuspend
  rw [List.countP_eq_zero]
  intro e he
  have := h e he
  cases e <;> simp_all [isResolveCall]

/-- The two outcomes of `suspendProcess`: the handle did not open and nothing else was
called, or it opened and exactly one `SuspendThread` call was issued. -/
theorem suspendProcess_cases (os : OS) (pid : Int) (w : World) :
    (os.openProcess w.trace (toUint64 pid) = 0 ∧
      suspendProcess os pid w = (some "failed to open process",
        w.emit (Event.openProcess PROCESS_ALL_ACCESS (toUint64 pid)))) ∨
    (os.openProcess w.trace (toUint64 pid) ≠ 0 ∧
      suspendProcess os pid w = (none,
        w.emitAll [Event.openProcess PROCESS_ALL_ACCESS (toUint64 pid),
          Event.suspendThread (os.openProcess w.trace (toUint64 pid)),
          Event.closeHandle (os.openProcess w.trace (toUint64 pid))])) := by
  unfold suspendProcess
  by_cases h : os.openProcess w.trace (toUint64 pid) = 0
  · left
    simp [h]
  · right
    simp [h, World.emit, World.emitAll]

theorem resumeProcess_cases (os : OS) (pid : Int) (w : World) :
    (os.openProcess w.trace (toUint64 pid) = 0 ∧
      resumeProcess os pid w = (some "failed to open process",
        w.emit (Event.openProcess PROCESS_ALL_ACCESS (toUint64 pid)))) ∨
    (os.openProcess w.trace (toUint64 pid) ≠ 0 ∧
      resumeProcess os pid w = (none,
        w.emitAll [Event.openProcess PROCESS_ALL_ACCESS (toUint64 pid),
          Event.resumeThread (os.openProcess w.trace (toUint64 pid)),
          Event.closeHandle (os.openProcess w.trace (toUint64 pid))])) := by
  unfold resumeProcess
  by_cases h : os.openProcess w.trace (toUint64 pid) = 0
  · left
    simp [h]
  · right
    simp [h, World.emit, World.emitAll]

/-- Outcome of `Pause` while the flag is running: an error with the flag and the number
of suspend calls unchanged, or success with the flag suspended and one more suspend
call. -/
theorem Pause_running (os : OS) (win : window) (w : World) (h : w.gamestate = 0) :
    (∃ err, (win.Pause os w).1 = some err ∧ (win.Pause os w).2.gamestate = 0 ∧
        countSuspend (win.Pause os w).2.trace = countSuspend w.trace) ∨
    ((win.Pause os w).1 = none ∧ (win.Pause os w).2.gamestate = 1 ∧
        countSuspend (win.Pause os w).2.trace = countSuspend w.trace + 1) := by
  obtain ⟨hg, _, es, ht, hes⟩ := Process_frame os win w
  have hc := countSuspend_of_resolve es hes
  unfold window.Pause
  rw [if_pos h]
  split
  · next err w1 heq =>
    rw [heq] at hg ht
    simp only at hg ht
    left
    refine ⟨_, rfl, hg.trans h, ?_⟩
    simp only
    rw [ht, countSuspend_append, hc]
    rfl
  · next proc w1 heq =>
    rw [heq] at hg ht
    simp only at hg ht
    rcases suspendProcess_cases os proc.Pid w1 with ⟨_, hs⟩ | ⟨_, hs⟩
    · left
      rw [hs]
      refine ⟨_, rfl, hg.trans h, ?_⟩
      simp only [World.emit]
      rw [ht, countSuspend_append, countSuspend_append, hc]
      simp [countSuspend]
    · right
      rw [hs]
      refine ⟨rfl, rfl, ?_⟩
      simp only [World.emitAll]
      rw [ht, countSuspend_append, countSuspend_append, hc]
      simp [countSuspend]

/-- Outcome of `Resume` while the flag is suspended: an error with the flag unchanged, or
success with the flag running. -/
theorem Resume_suspended (os : OS) (win : window) (w : World) (h : w.gamestate = 1) :
    (∃ err, (win.Resume os w).1 = some err ∧ (win.Resume os w).2.gamestate = 1) ∨
    ((win.Resume os w).1 = none ∧ (win.Resume os w).2.gamestate = 0) := by
  obtain ⟨hg, _, es, ht, hes⟩ := Process_frame os win w
  unfold window.Resume
  rw [if_pos h]
  split
  · next err w1 heq =>
    rw [heq] at hg
    simp only at hg
    left
    exact ⟨_, rfl, hg.trans h⟩
  · next proc w1 heq =>
    rw [heq] at hg
    simp only at hg
    rcases resumeProcess_cases os proc.Pid w1 with ⟨_, hs⟩ | ⟨_, hs⟩
    · left
      rw [hs]
      exact ⟨_, rfl, hg.trans h⟩
    · right
      rw [hs]
      exact ⟨rfl, rfl⟩

theorem Pause_not_running (os : OS) (win : window) (w : World) (h : w.gamestate ≠ 0) :
    win.Pause os w = (none, w) := by
  unfold window.Pause
  rw [if_neg h]

theorem Resume_not_suspended (os : OS) (win : window) (w : World) (h : w.gamestate ≠ 1) :
    win.Resume os w = (none, w) := by
  unfold window.Resume
  rw [if_neg h]

/-! ## The flag is written by `Pause` and `Resume` only -/

theorem justPress_gamestate (os : OS) (win : window) (key : String) (w : World) :
    (win.justPress os key w).2.gamestate = w.gamestate := by
  unfold window.justPress
  simp only
  split <;> rfl

theorem SetActive_gamestate (os : OS) (win : window) (w : World) :
    (win.SetActive os w).2.gamestate = w.gamestate := by
  unfold window.SetActive
  simp only
  split <;> rfl

theorem ActiveWindow_gamestate (os : OS) (s : Server) (w : World) :
    (s.ActiveWindow os w).2.gamestate = w.gamestate := by
  unfold Server.ActiveWindow
  simp only
  split
  · rfl
  · split <;> rfl

theorem EnumWindows_gamestate (os : OS) (s : Server) (w : World) :
    (s.EnumWindows os w).2.gamestate = w.gamestate := by
  unfold Server.EnumWindows
  simp only
  split <;> rfl

theorem rect_gamestate (os : OS) (win : window) (w : World) :
    (win.rect os w).2.gamestate = w.gamestate := by
  unfold window.rect
  simp only
  split <;> rfl

theorem WxH_gamestate (os : OS) (win : window) (w : World) :
    (win.WxH os w).2.gamestate = w.gamestate := by
  have h := rect_gamestate os win w
  unfold window.WxH
  split
  · next heq => rw [heq] at h; exact h
  · next heq => rw [heq] at h; exact h

theorem GetImage_gamestate (os : OS) (win : window) (w : World) :
    (win.GetImage os w).2.gamestate = w.gamestate := by
  have h := rect_gamestate os win w
  unfold window.GetImage
  split
  · next heq => rw [heq] at h; exact h
  · next r w1 heq =>
    rw [heq] at h
    simp only at h
    simp only
    repeat' split
    all_goals exact h

theorem pressTask_gamestate (os : OS) (win : window) (key : String) (w : World) :
    (win.pressTask os key w).gamestate = w.gamestate := by
  have h := ActiveWindow_gamestate os win.parent
    (w.emit (Event.print ("Pressing " ++ key ++ "\n")))
  unfold window.pressTask
  simp only
  split
  · next heq => rw [heq] at h; exact h
  · next activeWin w2 heq =>
    rw [heq] at h
    simp only at h
    split
    · exact h
    · split
      · exact h
      · split
        · have hj := justPress_gamestate os win key w2
          split
          · next heq2 => rw [heq2] at hj; exact hj.trans h
          · next heq2 => rw [heq2] at hj; exact hj.trans h
        · have hs := SetActive_gamestate os win (w2.emit (Event.print "Refocusing\n"))
          have hw4 : (match win.SetActive os (w2.emit (Event.print "Refocusing\n")) with
              | (some err, w4) =>
                w4.emit (Event.storeRes (wrap err "failed to set the active window"))
              | (none, w4) => w4).gamestate = w2.gamestate := by
            split
            · next heq3 => rw [heq3] at hs; exact hs
            · next heq3 => rw [heq3] at hs; exact hs
          have hj := justPress_gamestate os win key
            ((match win.SetActive os (w2.emit (Event.print "Refocusing\n")) with
              | (some err, w4) =>
                w4.emit (Event.storeRes (wrap err "failed to set the active window"))
              | (none, w4) => w4).emit (Event.sleep 250))
          split
          · next heq2 => rw [heq2] at hj; exact hj.trans (hw4.trans h)
          · next heq2 => rw [heq2] at hj; exact hj.trans (hw4.trans h)

theorem Call.step_flag (os : OS) (w : World) (c : Call)
    (h : w.gamestate = 0 ∨ w.gamestate = 1) :
    (c.step os w).gamestate = 0 ∨ (c.step os w).gamestate = 1 := by
  cases c with
  | Pause win =>
    rcases h with h | h
    · rcases Pause_running os win w h with ⟨_, _, hg, _⟩ | ⟨_, hg, _⟩
      · exact Or.inl hg
      · exact Or.inr hg
    · right
      simp only [Call.step]
      rw [Pause_not_running os win w (by omega)]
      exact h
  | Resume win =>
    rcases h with h | h
    · left
      simp only [Call.step]
      rw [Resume_not_suspended os win w (by omega)]
      exact h
    · rcases Resume_suspended os win w h with ⟨_, _, hg⟩ | ⟨_, hg⟩
      · exact Or.inr hg
      · exact Or.inl hg
  | Process win =>
    simp only [Call.step]
    rw [(Process_frame os win w).1]
    exact h
  | Press win key sched =>
    simp only [Call.step, window.Press]
    rw [pressTask_gamestate]
    exact h
  | keyInit => exact h
  | WxH win =>
    simp only [Call.step]
    rw [WxH_gamestate]
    exact h
  | GetImage win =>
    simp only [Call.step]
    rw [GetImage_gamestate]
    exact h
  | SetActive win =>
    simp only [Call.step]
    rw [SetActive_gamestate]
    exact h
  | ActiveWindow s =>
    simp only [Call.step]
    rw [ActiveWindow_gamestate]
    exact h
  | EnumWindows s =>
    simp only [Call.step]
    rw [EnumWindows_gamestate]
    exact h

theorem runCalls_flag (os : OS) (calls : List Call) (w : World)
    (h : w.gamestate = 0 ∨ w.gamestate = 1) :
    (runCalls os calls w).gamestate = 0 ∨ (runCalls os calls w).gamestate = 1 := by
  induction calls generalizing w with
  | nil => exact h
  | cons c rest ih => exact ih _ (Call.step_flag os w c h)

/-- With a process handle that opens, `suspendProcess` and `resumeProcess` return `nil`
whatever `SuspendThread` and `ResumeThread` answer. -/
theorem suspend_resume_ignore_primitive (os : OS) (pid : Int) (w : World)
    (h : os.openProcess w.trace (toUint64 pid) ≠ 0) :
    (suspendProcess os pid w).1 = none ∧ (resumeProcess os pid w).1 = none := by
  rcases suspendProcess_cases os pid w with ⟨h0, _⟩ | ⟨_, hs⟩
  · exact absurd h0 h
  · rcases resumeProcess_cases os pid w with ⟨h0, _⟩ | ⟨_, hr⟩
    · exact absurd h0 h
    · rw [hs, hr]
      exact ⟨rfl, rfl⟩

/-! ## Key table and enumeration lemmas -/

theorem keyInit_keycodes (w : World) :
    (keyInit w).2.keycodes = [("enter", "enter"), ("down", "down"), ("right", "right"),
      ("left", "left"), ("up", "up"), ("x", "x"), ("z", "z")] := by
  simp only [keyInit]
  decide

theorem keyInit_lookup (w : World) (k : String) :
    (keyInit w).2.keycodes.lookup k =
      if k ∈ ["z", "x", "up", "left", "right", "down", "enter"] then some k else none := by
  rw [keyInit_keycodes]
  simp only [List.lookup]
  by_cases h1 : k = "enter"
  · subst h1; decide
  by_cases h2 : k = "down"
  · subst h2; decide
  by_cases h3 : k = "right"
  · subst h3; decide
  by_cases h4 : k = "left"
  · subst h4; decide
  by_cases h5 : k = "up"
  · subst h5; decide
  by_cases h6 : k = "x"
  · subst h6; decide
  by_cases h7 : k = "z"
  · subst h7; decide
  have e1 : (k == "enter") = false := by simpa using h1
  have e2 : (k == "down") = false := by simpa using h2
  have e3 : (k == "right") = false := by simpa using h3
  have e4 : (k == "left") = false := by simpa using h4
  have e5 : (k == "up") = false := by simpa using h5
  have e6 : (k == "x") = false := by simpa using h6
  have e7 : (k == "z") = false := by simpa using h7
  simp [e1, e2, e3, e4, e5, e6, e7, h1, h2, h3, h4, h5, h6, h7]

theorem justPress_supported (os : OS) (win : window) (key : String) (w : World)
    (h : os.toLower key ∈ ["z", "x", "up", "left", "right", "down", "enter"]) :
    win.justPress os key (keyInit w).2 =
      (none, (keyInit w).2.emitAll [Event.keyDown (os.toLower key), Event.sleep 40,
        Event.keyUp (os.toLower key)]) := by
  unfold window.justPress
  simp only
  rw [keyInit_lookup, if_pos h]
  simp [World.emit, World.emitAll]

theorem justPress_unsupported (os : OS) (win : window) (key : String) (w : World)
    (h : os.toLower key ∉ ["z", "x", "up", "left", "right", "down", "enter"]) :
    win.justPress os key (keyInit w).2 =
      (some "the key given was not included in the keycodes map", (keyInit w).2) := by
  unfold window.justPress
  simp only
  rw [keyInit_lookup, if_neg h]

theorem enumDrive_callback (s : Server) (reported : List Nat) (acc : List window) :
    enumDrive (enumCallback s) reported acc =
      acc ++ (reported.filter (fun h => h != 0)).map (fun h => { parent := s, hwnd := h }) := by
  induction reported generalizing acc with
  | nil => simp [enumDrive]
  | cons h rest ih =>
    unfold enumDrive
    by_cases h0 : h = 0
    · subst h0
      simp [enumCallback, newWindow, window.check, ih]
    · simp [enumCallback, newWindow, window.check, h0, ih]

/-! ## Geometry lemmas -/

theorem wrapInt32_of_range (x : Int) (h1 : -2 ^ 31 ≤ x) (h2 : x < 2 ^ 31) :
    wrapInt32 x = x := by
  unfold wrapInt32
  omega

theorem osOk_captureSucceeds : CaptureSucceeds osOk :=
  ⟨fun _ _ => ⟨100, rfl⟩, fun _ _ => ⟨101, rfl⟩, fun _ _ _ _ => ⟨102, rfl⟩,
    fun _ _ _ _ _ => rfl, fun _ _ _ _ => by simp [osOk]⟩

theorem osZeroWidth_captureSucceeds : CaptureSucceeds osZeroWidth :=
  ⟨fun _ _ => ⟨100, rfl⟩, fun _ _ => ⟨101, rfl⟩, fun _ _ _ _ => ⟨102, rfl⟩,
    fun _ _ _ _ _ => rfl, fun _ _ _ _ => by simp [osZeroWidth, osOk]⟩

theorem goCopy_length (dst src : List Nat) : (goCopy dst src).length = dst.length := by
  unfold goCopy
  simp only [List.length_append, List.length_take, List.length_drop]
  omega

theorem wrapInt64_of_range (x : Int) (h1 : -2 ^ 63 ≤ x) (h2 : x < 2 ^ 63) :
    wrapInt64 x = x := by
  unfold wrapInt64
  omega

/-- On a window of positive width `W` and height `H` (with `W * H * 4` within the
allocation limit) whose capture calls all succeed, `GetImage()` returns an image of
bounds (0, 0)-(W, H) with `W * H * 4` pixel bytes. -/
theorem GetImage_positive_size (os : OS) (win : window) (w : World) (r : RECT)
    (hos : CaptureSucceeds os)
    (hr : (win.rect os w).1 = .ok r)
    (hW : 0 < r.Right - r.Left) (hW2 : r.Right - r.Left < 2 ^ 31)
    (hH : 0 < r.Bottom - r.Top) (hH2 : r.Bottom - r.Top < 2 ^ 31)
    (hsize : (r.Right - r.Left) * (r.Bottom - r.Top) * 4 ≤ 2 ^ 48) :
    ∃ img, (win.GetImage os w).1 = .ok img ∧
      img.Rect =
        { MinX := 0, MinY := 0, MaxX := r.Right - r.Left, MaxY := r.Bottom - r.Top } ∧
      (img.Pix.length : Int) = (r.Right - r.Left) * (r.Bottom - r.Top) * 4 := by
  obtain ⟨hdc, hmem, hbm, hblt, hdib⟩ := hos
  have hw32 : wrapInt32 (r.Right - r.Left) = r.Right - r.Left :=
    wrapInt32_of_range _ (by omega) hW2
  have hh32 : wrapInt32 (r.Bottom - r.Top) = r.Bottom - r.Top :=
    wrapInt32_of_range _ (by omega) hH2
  generalize hWd : r.Right - r.Left = W at *
  generalize hHd : r.Bottom - r.Top = H at *
  have hpos : 0 < W * H := Int.mul_pos hW hH
  have hlen : wrapInt64 (wrapInt64 (W * H) * 4) = W * H * 4 := by
    rw [wrapInt64_of_range (W * H) (by omega) (by omega)]
    exact wrapInt64_of_range _ (by omega) (by omega)
  have hmake : goMake (W * H * 4) = some (List.replicate (W * H * 4).toNat 0) := by
    unfold goMake maxAlloc
    rw [if_neg (by omega)]
  have hrect : imageRect 0 0 W H = { MinX := 0, MinY := 0, MaxX := W, MaxY := H } := by
    unfold imageRect
    rw [if_neg (by omega), if_neg (by omega)]
  have hnew : imageNewRGBA (imageRect 0 0 W H) =
      some { Pix := List.replicate (W * H * 4).toNat 0
             Stride := 4 * W
             Rect := { MinX := 0, MinY := 0, MaxX := W, MaxY := H } } := by
    rw [hrect]
    unfold imageNewRGBA
    simp only [Rectangle.Dx, Rectangle.Dy, sub_zero]
    have e : 4 * W * H = W * H * 4 := by ring
    rw [e, if_neg (by omega), hmake]
  unfold window.GetImage
  split
  · next heq =>
    rw [heq] at hr
    simp at hr
  · next r1 w1 heq =>
    rw [heq] at hr
    simp only [Except.ok.injEq] at hr
    subst hr
    simp only [hWd, hHd, hw32, hh32]
    obtain ⟨d1, hd1⟩ := hdc w1.trace win.hwnd
    rw [hd1]
    simp only
    obtain ⟨d2, hd2⟩ := hmem (w1.emit (Event.getDC win.hwnd)).trace d1
    rw [hd2]
    simp only
    obtain ⟨d3, hd3⟩ := hbm
      ((w1.emit (Event.getDC win.hwnd)).emit (Event.createCompatibleDC d1)).trace d1 W H
    rw [hd3]
    simp only [hblt, hlen, hmake, hnew]
    have hne : ¬ (List.replicate (W * H * 4).toNat 0).length = 0 := by
      rw [List.length_replicate]
      omega
    simp only [Bool.not_true, Bool.false_eq_true, if_false, hne]
    split
    · next hz =>
      exact absurd (congrArg Prod.fst hz) (hdib _ _ _ _)
    · refine ⟨_, rfl, rfl, ?_⟩
      simp only [goCopy_length, List.length_replicate]
      omega

/-- The sample window of 2 by 1 pixels: `GetImage()` returns its 8 bytes. -/
theorem GetImage_sample :
    (win5.GetImage osOk World.init).1 =
      .ok { Pix := [1, 2, 3, 4, 5, 6, 7, 8]
            Stride := 8
            Rect := { MinX := 0, MinY := 0, MaxX := 2, MaxY := 1 } } := by
  rfl

/-! ## Process resolution lemmas -/

theorem scanProcesses_eq_find (os : OS) (frag : String) (ps : List ProcessEntry) :
    scanProcesses os frag ps =
      (ps.find? (matchesFragment os frag)).map (fun p => toUint64 p.Pid) := by
  induction ps with
  | nil => rfl
  | cons p rest ih =>
    unfold scanProcesses
    by_cases h : matchesFragment os frag p = true
    · have h2 := h
      unfold matchesFragment at h2
      rw [if_pos h2, List.find?_cons_of_pos _ h]
      rfl
    · have h2 := h
      unfold matchesFragment at h2
      rw [if_neg h2, List.find?_cons_of_neg _ h]
      exact ih

theorem find_matches_not_self (os : OS) (frag : String) (ps : List ProcessEntry)
    (p : ProcessEntry) (h : ps.find? (matchesFragment os frag) = some p) :
    p.Executable ≠ "Underbot.exe" := by
  have hm := List.find?_some h
  unfold matchesFragment at hm
  simp only [Bool.and_eq_true, bne_iff_ne, ne_eq] at hm
  exact hm.2

theorem executableNameToPid_fixed (os : OS) (frag : String) (ps : List ProcessEntry)
    (w : World) (hps : ∀ t, os.processes t = .ok ps) :
    (executableNameToPid os frag w).1 =
      match ps.find? (matchesFragment os frag) with
      | some p => .ok (toUint64 p.Pid)
      | none => .error "could not find the process" := by
  unfold executableNameToPid
  simp only [hps, scanProcesses_eq_find]
  cases ps.find? (matchesFragment os frag) <;> rfl

theorem findUndertale_fixed (os : OS) (ps : List ProcessEntry) (w : World)
    (hps : ∀ t, os.processes t = .ok ps) :
    (findUndertale os w).1 =
      match firstByFragment os ps with
      | some p => .ok (toUint64 p.Pid)
      | none => .error "failed to find undertale process" := by
  have step : ∀ (frag : String) (rest : List String) (w : World),
      (findUndertaleLoop os (frag :: rest) w).1 =
        match ps.find? (matchesFragment os frag) with
        | some p => .ok (toUint64 p.Pid)
        | none => (findUndertaleLoop os rest (executableNameToPid os frag w).2).1 := by
    intro frag rest w
    have h := executableNameToPid_fixed os frag ps w hps
    rw [findUndertaleLoop]
    split
    · next pid w1 heq =>
      rw [heq] at h
      simp only at h
      cases hf : ps.find? (matchesFragment os frag) with
      | none => rw [hf] at h; simp at h
      | some p => rw [hf] at h; simpa using h
    · next err w1 heq =>
      rw [heq] at h
      simp only at h
      cases hf : ps.find? (matchesFragment os frag) with
      | none => rw [heq]
      | some p => rw [hf] at h; simp at h
  unfold findUndertale undertaleProcessNames firstByFragment
  rw [step]
  cases h1 : ps.find? (matchesFragment os "runner") with
  | some p => rfl
  | none =>
    simp only
    rw [step]
    cases h2 : ps.find? (matchesFragment os "under") with
    | some p => rfl
    | none =>
      simp only
      rw [step]
      cases h3 : ps.find? (matchesFragment os "tale") with
      | some p => rfl
      | none => rfl

theorem firstByFragment_not_self (os : OS) (ps : List ProcessEntry) (p : ProcessEntry)
    (h : firstByFragment os ps = some p) : p.Executable ≠ "Underbot.exe" := by
  unfold firstByFragment at h
  split at h
  · next q hq =>
    simp only [Option.some.injEq] at h
    subst h
    exact find_matches_not_self os _ ps _ hq
  · split at h
    · next q hq =>
      simp only [Option.some.injEq] at h
      subst h
      exact find_matches_not_self os _ ps _ hq
    · exact find_matches_not_self os _ ps _ h

/-- Result of `Process()` on the fallback path with a fixed process list. -/
theorem Process_fallback (os : OS) (win : window) (w : World) (ps : List ProcessEntry)
    (hpid : os.windowPid w.trace win.hwnd = 0) (hps : ∀ t, os.processes t = .ok ps) :
    match firstByFragment os ps with
    | none => (win.Process os w).1 =
        .error (wrap "failed to find undertale process" "failed to get pid of undertale")
    | some p =>
      ((win.Process os w).1 = .ok { Pid := toUint32 (toUint64 p.Pid) } ∨
        ∃ err, (win.Process os w).1 = .error (wrap err "failed to find process")) ∧
      ((∀ t pid, os.findProcess t pid = none) →
        (win.Process os w).1 = .ok { Pid := toUint32 (toUint64 p.Pid) }) := by
  have hf := findUndertale_fixed os ps (w.emit (Event.getWindowThreadProcessId win.hwnd)) hps
  unfold window.Process
  simp only [hpid, if_true]
  cases hsel : firstByFragment os ps with
  | none =>
    rw [hsel] at hf
    simp only at hf ⊢
    cases hres : findUndertale os (w.emit (Event.getWindowThreadProcessId win.hwnd)) with
    | mk r w2 =>
      rw [hres] at hf
      simp only at hf
      subst hf
      rfl
  | some p =>
    rw [hsel] at hf
    simp only at hf ⊢
    cases hres : findUndertale os (w.emit (Event.getWindowThreadProcessId win.hwnd)) with
    | mk r w2 =>
      rw [hres] at hf
      simp only at hf
      subst hf
      simp only
      constructor
      · cases hfp : os.findProcess w2.trace (toUint32 (toUint64 p.Pid)) with
        | none => left; rfl
        | some err => right; exact ⟨err, rfl⟩
      · intro hall
        rw [hall]

/-! ## Press lemmas -/

theorem justPress_missing (os : OS) (win : window) (key : String) (w : World)
    (h : w.keycodes.lookup (os.toLower key) = none) :
    win.justPress os key w =
      (some "the key given was not included in the keycodes map", w) := by
  unfold window.justPress
  simp only [h]

/-- A `Press` whose `return res` runs before the goroutine has done anything returns
`nil`. -/
theorem Press_returns_nil_at_once (os : OS) (win : window) (key : String) (w : World) :
    (win.Press os key 0 w).1 = none := by
  simp [window.Press, resAfter]

/-! ## Claims -/

/-- C1: from any state whose flag is running (the initial state included), when a first
`Pause()` succeeds, a second `Pause()` returns success, issues no call and leaves the flag
suspended, so that both calls together issue exactly one suspend call; and a `Resume()`
called while the flag is running returns success, issues no call at all and leaves the
flag running. -/
theorem C1_pause_twice_resume_noop (os : OS) (win : window) (w : World)
    (hrun : w.gamestate = 0) :
    (∀ w1, win.Pause os w = (none, w1) →
      win.Pause os w1 = (none, w1) ∧ w1.gamestate = 1 ∧
      countSuspend (win.Pause os w1).2.trace = countSuspend w.trace + 1) ∧
    win.Resume os w = (none, w) := by
  refine ⟨?_, Resume_not_suspended os win w (by omega)⟩
  intro w1 hp
  rcases Pause_running os win w hrun with ⟨err, he, _⟩ | ⟨_, hg, hc⟩
  · rw [hp] at he
    simp at he
  · rw [hp] at hg hc
    simp only at hg hc
    have h2 := Pause_not_running os win w1 (by omega)
    exact ⟨h2, hg, by rw [h2]; exact hc⟩

/-- C1 at the initial state with a window whose process suspends: one suspend call in
total after two `Pause()` calls. -/
theorem C1_pause_twice_resume_noop_witness :
    (win5.Pause osOk (win5.Pause osOk World.init).2 =
        (none, (win5.Pause osOk World.init).2) ∧
      (win5.Pause osOk World.init).2.gamestate = 1 ∧
      countSuspend (win5.Pause osOk (win5.Pause osOk World.init).2).2.trace = 1) ∧
    win5.Resume osOk World.init = (none, World.init) :=
  ⟨(C1_pause_twice_resume_noop osOk win5 World.init rfl).1 _ rfl,
    (C1_pause_twice_resume_noop osOk win5 World.init rfl).2⟩

/-- C2: with the key table built by `keyInit`, `justPress` succeeds exactly when the
lower-cased key is one of z, x, up, left, right, down, enter; for every other key it
returns the unsupported-key error and leaves the world, hence the trace, as it was: no
key-down and no key-up is issued. -/
theorem C2_justPress_allow_list (os : OS) (win : window) (key : String) (w : World) :
    ((win.justPress os key (keyInit w).2).1 = none ↔
      os.toLower key ∈ ["z", "x", "up", "left", "right", "down", "enter"]) ∧
    (os.toLower key ∉ ["z", "x", "up", "left", "right", "down", "enter"] →
      win.justPress os key (keyInit w).2 =
        (some "the key given was not included in the keycodes map", (keyInit w).2) ∧
      (win.justPress os key (keyInit w).2).2.trace = w.trace) := by
  constructor
  · by_cases h : os.toLower key ∈ ["z", "x", "up", "left", "right", "down", "enter"]
    · rw [justPress_supported os win key w h]
      simp [h]
    · rw [justPress_unsupported os win key w h]
      simp [h]
  · intro h
    rw [justPress_unsupported os win key w h]
    exact ⟨rfl, rfl⟩

/-- C2 at the key "Q": it lower-cases to "q", which is not in the table. -/
theorem C2_justPress_allow_list_witness :
    win5.justPress osOk "Q" (keyInit World.init).2 =
        (some "the key given was not included in the keycodes map", (keyInit World.init).2) ∧
      (win5.justPress osOk "Q" (keyInit World.init).2).2.trace = [] :=
  (C2_justPress_allow_list osOk win5 "Q" World.init).2 (by decide)

/-- C3: when the enumeration succeeds and reports the identifiers `reported`,
`EnumWindows()` returns the windows of the reported identifiers that pass the check, in
the order reported and each as often as reported; their number is the number reported
minus the number that fail the check, and every returned window passes `check`. -/
theorem C3_EnumWindows_filters_invalid (os : OS) (s : Server) (w : World)
    (hok : (os.enumWindows w.trace).2 = none) :
    ∃ wins, (s.EnumWindows os w).1 = .ok wins ∧
      wins.map window.hwnd = (os.enumWindows w.trace).1.filter (fun h => h != 0) ∧
      wins.length = (os.enumWindows w.trace).1.length -
        ((os.enumWindows w.trace).1.filter
          (fun h => (newWindow s h).2.isSome)).length ∧
      (∀ win ∈ wins, win.check = none ∧ win.parent = s) := by
  refine ⟨enumDrive (enumCallback s) (os.enumWindows w.trace).1 [], ?_, ?_, ?_, ?_⟩
  · unfold Server.EnumWindows
    simp only [hok]
  · rw [enumDrive_callback]
    simp [Function.comp_def]
  · rw [enumDrive_callback]
    generalize (os.enumWindows w.trace).1 = l
    induction l with
    | nil => simp
    | cons h rest ih =>
      have hle : (rest.filter (fun h => (newWindow s h).2.isSome)).length ≤ rest.length :=
        List.length_filter_le _ _
      by_cases h0 : h = 0
      · subst h0
        simp only [List.nil_append, List.length_map] at ih ⊢
        simp [newWindow, window.check] at ih hle ⊢
        omega
      · simp only [List.nil_append, List.length_map] at ih ⊢
        simp [newWindow, window.check, h0] at ih hle ⊢
        omega
  · intro win hwin
    rw [enumDrive_callback] at hwin
    simp only [List.nil_append, List.mem_map, List.mem_filter] at hwin
    obtain ⟨h, ⟨_, hne⟩, rfl⟩ := hwin
    simp only [window.check]
    simp at hne
    simp [hne]

/-- C3 on a report of three identifiers of which one is zero: two windows are
returned. -/
theorem C3_EnumWindows_filters_invalid_witness :
    ∃ wins, (Server.EnumWindows osOk {} World.init).1 = .ok wins ∧
      wins.map window.hwnd = [5, 9] ∧
      wins.length = 3 - 1 ∧
      (∀ win ∈ wins, win.check = none ∧ win.parent = {}) :=
  C3_EnumWindows_filters_invalid osOk {} World.init rfl

/-- C4 (the code at the failing inputs): when `rect()` reports a rectangle of width 0 or
height 0 and every capture call succeeds, `GetImage()` does not return: taking the address
of element 0 of the empty pixel buffer raises the run-time panic "index out of range". -/
theorem C4_GetImage_panics_on_empty (os : OS) (win : window) (w : World) (r : RECT)
    (hos : CaptureSucceeds os)
    (hr : (win.rect os w).1 = .ok r)
    (hzero : r.Right = r.Left ∨ r.Bottom = r.Top) :
    (win.GetImage os w).1 = .panic "index out of range [0] with length 0" := by
  obtain ⟨hdc, hmem, hbm, hblt, _⟩ := hos
  have hlen : wrapInt64 (wrapInt64 (wrapInt32 (r.Right - r.Left) *
      wrapInt32 (r.Bottom - r.Top)) * 4) = 0 := by
    rcases hzero with h | h
    · rw [h]
      simp [wrapInt32, wrapInt64]
    · rw [h]
      simp [wrapInt32, wrapInt64]
  unfold window.GetImage
  split
  · next heq =>
    rw [heq] at hr
    simp at hr
  · next r1 w1 heq =>
    rw [heq] at hr
    simp only [Except.ok.injEq] at hr
    subst hr
    simp only
    obtain ⟨d1, hd1⟩ := hdc w1.trace win.hwnd
    rw [hd1]
    simp only
    obtain ⟨d2, hd2⟩ := hmem (w1.emit (Event.getDC win.hwnd)).trace d1
    rw [hd2]
    simp only
    obtain ⟨d3, hd3⟩ := hbm
      ((w1.emit (Event.getDC win.hwnd)).emit (Event.createCompatibleDC d1)).trace d1
      (wrapInt32 (wrapInt32 (r1.Right - r1.Left)))
      (wrapInt32 (wrapInt32 (r1.Bottom - r1.Top)))
    rw [hd3]
    simp only [hblt, hlen]
    simp [goMake, maxAlloc]

/-- C4 (the code at the failing input) on a window whose rectangle is (10, 20, 10, 21),
of size 0 by 1. -/
theorem C4_GetImage_panics_on_empty_witness :
    (win5.GetImage osZeroWidth World.init).1 =
      .panic "index out of range [0] with length 0" :=
  C4_GetImage_panics_on_empty osZeroWidth win5 World.init
    { Left := 10, Top := 20, Right := 10, Bottom := 21 }
    osZeroWidth_captureSucceeds rfl (Or.inl rfl)

/-- C5 (counterexample): with the process list UNDERTALE.exe (pid 10), runner.exe
(pid 20) and a direct PID query that yields 0, the first process of the list that matches
one of the fragments is UNDERTALE.exe, yet `Process()` resolves to pid 20. -/
theorem C5_Process_first_match_counterexample :
    osFallback.windowPid [] win5.hwnd = 0 ∧
    firstMatchingAny osFallback twoProcesses =
      some { Pid := 10, Executable := "UNDERTALE.exe" } ∧
    (win5.Process osFallback World.init).1 = .ok { Pid := 20 } ∧
    (win5.Process osFallback World.init).1 ≠ .ok { Pid := 10 } := by
  refine ⟨rfl, ?_, rfl, ?_⟩
  · decide
  · intro h
    have h2 : (Except.ok { Pid := 20 } : Except String Process) = .ok { Pid := 10 } := h
    simp at h2

/-- C5 (amended): when the direct PID query yields 0 and the process list is `ps`,
`Process()` fails if no process of the list matches a fragment; otherwise the selected
process is the first match of "runner", or else the first match of "under", or else the
first match of "tale" (a match being a name that contains the fragment
case-insensitively and is not `Underbot.exe`): the selected process is never
`Underbot.exe`, a successful `Process()` carries its PID (reduced to `uint32`, which is
the PID itself when it lies in that range), the only other outcome is the error of
`os.FindProcess`, and `Process()` succeeds whenever `os.FindProcess` does. -/
theorem C5_Process_fallback_by_priority (os : OS) (win : window) (w : World)
    (ps : List ProcessEntry)
    (hpid : os.windowPid w.trace win.hwnd = 0) (hps : ∀ t, os.processes t = .ok ps) :
    (firstByFragment os ps = none → ∃ err, (win.Process os w).1 = .error err) ∧
    (∀ p, firstByFragment os ps = some p →
      p.Executable ≠ "Underbot.exe" ∧
      ((win.Process os w).1 = .ok { Pid := toUint32 (toUint64 p.Pid) } ∨
        ∃ err, (win.Process os w).1 = .error (wrap err "failed to find process")) ∧
      ((∀ t pid, os.findProcess t pid = none) →
        (win.Process os w).1 = .ok { Pid := toUint32 (toUint64 p.Pid) }) ∧
      (0 ≤ p.Pid → p.Pid < 2 ^ 32 → (toUint32 (toUint64 p.Pid) : Int) = p.Pid)) := by
  have h := Process_fallback os win w ps hpid hps
  constructor
  · intro hnone
    rw [hnone] at h
    exact ⟨_, h⟩
  · intro p hsome
    rw [hsome] at h
    refine ⟨firstByFragment_not_self os ps p hsome, h.1, h.2, ?_⟩
    intro h0 h1
    unfold toUint32 toUint64
    omega

/-- C5 (amended) on the list UNDERTALE.exe (pid 10), runner.exe (pid 20): the "runner"
match is selected and `Process()` resolves to pid 20. -/
theorem C5_Process_fallback_by_priority_witness :
    (win5.Process osFallback World.init).1 = .ok { Pid := 20 } :=
  ((C5_Process_fallback_by_priority osFallback win5 World.init twoProcesses rfl
    (fun _ => rfl)).2 { Pid := 20, Executable := "runner.exe" } (by decide)).2.2.1
    (fun _ _ => rfl)

/-- C7 (the code at the failing inputs): `Press` returns `res` right after starting the
goroutine.  With an unsupported key "q" the key-event step fails, with no focused window
the focus check fails, with a refused activation request the activation fails: in each
case the goroutine stores the error in `res`, but a `Press` that returns before the
goroutine has run returns `nil`. -/
theorem C7_Press_returns_before_failure :
    win5.pressEvents osOk "q" (keyInit World.init).2 =
      [Event.print "Pressing q\n", Event.getForegroundWindow,
        Event.storeRes
          "failed to use justPress: the key given was not included in the keycodes map"] ∧
    (win5.Press osOk "q" 0 (keyInit World.init).2).1 = none ∧
    win5.pressEvents osNoFocus "z" (keyInit World.init).2 =
      [Event.print "Pressing z\n", Event.getForegroundWindow,
        Event.storeRes "failed to get the active window: no active window"] ∧
    (win5.Press osNoFocus "z" 0 (keyInit World.init).2).1 = none ∧
    win5.pressEvents osRefusesActivation "z" (keyInit World.init).2 =
      [Event.print "Pressing z\n", Event.getForegroundWindow, Event.print "Refocusing\n",
        Event.setForegroundWindow 5,
        Event.storeRes "failed to set the active window: failed to set foreground window",
        Event.sleep 250, Event.keyDown "z", Event.sleep 40, Event.keyUp "z"] ∧
    (win5.Press osRefusesActivation "z" 0 (keyInit World.init).2).1 = none := by
  refine ⟨?_, rfl, ?_, rfl, ?_, rfl⟩
  · decide
  · decide
  · decide

/-- C8 (counterexample): for the rectangle left = -2147483648, right = 2147483647,
top = 0, bottom = 1 reported by `rect()`, `WxH()` returns (-1, 1), not
(right-left, bottom-top) = (4294967295, 1). -/
theorem C8_WxH_wraps_counterexample :
    (win5.rect osWideRect World.init).1 =
      .ok { Left := -2147483648, Top := 0, Right := 2147483647, Bottom := 1 } ∧
    (win5.WxH osWideRect World.init).1 = .ok (-1, 1) ∧
    (win5.WxH osWideRect World.init).1 ≠
      .ok ((2147483647 : Int) - (-2147483648), (1 : Int) - 0) := by
  refine ⟨rfl, rfl, ?_⟩
  intro h
  have h2 : (Except.ok (-1, 1) : Except String (Int × Int)) =
      .ok ((2147483647 : Int) - (-2147483648), (1 : Int) - 0) := h
  simp at h2

/-- C8 (amended): whenever `rect()` reports (left, top, right, bottom), `WxH()` returns
the pair of differences right-left and bottom-top reduced to `int32`; this is exactly
(right-left, bottom-top) when both differences lie in the `int32` range; and `WxH()`
fails, with the same error, exactly when `rect()` fails. -/
theorem C8_WxH_from_rect (os : OS) (win : window) (w : World) :
    (∀ r, (win.rect os w).1 = .ok r →
      (win.WxH os w).1 = .ok (wrapInt32 (r.Right - r.Left), wrapInt32 (r.Bottom - r.Top)) ∧
      (-2 ^ 31 ≤ r.Right - r.Left → r.Right - r.Left < 2 ^ 31 →
        -2 ^ 31 ≤ r.Bottom - r.Top → r.Bottom - r.Top < 2 ^ 31 →
        (win.WxH os w).1 = .ok (r.Right - r.Left, r.Bottom - r.Top))) ∧
    (∀ err, (win.WxH os w).1 = .error err ↔ (win.rect os w).1 = .error err) := by
  unfold window.WxH
  constructor
  · intro r hr
    split
    · next heq =>
      rw [heq] at hr
      simp at hr
    · next r1 w1 heq =>
      rw [heq] at hr
      simp only [Except.ok.injEq] at hr
      subst hr
      refine ⟨rfl, ?_⟩
      intro a b c d
      rw [wrapInt32_of_range _ a b, wrapInt32_of_range _ c d]
  · intro err
    split
    · next heq =>
      rw [heq]
      simp
    · next r1 w1 heq =>
      rw [heq]
      simp

/-- C8 (amended) on a window whose rectangle is (10, 20, 12, 21): `WxH()` is (2, 1). -/
theorem C8_WxH_from_rect_witness :
    (win5.WxH osOk World.init).1 = .ok ((12 : Int) - 10, (21 : Int) - 20) :=
  ((C8_WxH_from_rect osOk win5 World.init).1
    { Left := 10, Top := 20, Right := 12, Bottom := 21 } rfl).2
    (by decide) (by decide) (by decide) (by decide)

/-- C9 (the code at the failing input): with a process handle that opens and suspend and
resume primitives that report failure, `suspendProcess` and `resumeProcess` still return
`nil`, `Pause()` reports success and marks the game suspended, and the following
`Resume()` reports success and marks it running. -/
theorem C9_primitive_failure_not_reported :
    osPrimitiveFails.openProcess [] 42 = 7 ∧
    osPrimitiveFails.suspendThread
      [Event.openProcess PROCESS_ALL_ACCESS 42] 7 = 0xFFFFFFFF ∧
    osPrimitiveFails.resumeThread
      [Event.openProcess PROCESS_ALL_ACCESS 42] 7 = 0xFFFFFFFF ∧
    suspendProcess osPrimitiveFails 42 World.init =
      (none, World.init.emitAll [Event.openProcess PROCESS_ALL_ACCESS 42,
        Event.suspendThread 7, Event.closeHandle 7]) ∧
    resumeProcess osPrimitiveFails 42 World.init =
      (none, World.init.emitAll [Event.openProcess PROCESS_ALL_ACCESS 42,
        Event.resumeThread 7, Event.closeHandle 7]) ∧
    (win5.Pause osPrimitiveFails World.init).1 = none ∧
    (win5.Pause osPrimitiveFails World.init).2.gamestate = 1 ∧
    (win5.Resume osPrimitiveFails (win5.Pause osPrimitiveFails World.init).2).1 = none ∧
    (win5.Resume osPrimitiveFails (win5.Pause osPrimitiveFails World.init).2).2.gamestate
      = 0 := by
  refine ⟨rfl, rfl, rfl, rfl, rfl, rfl, rfl, rfl, rfl⟩

/-- C10: along every run of calls to the entry points `Pause`, `Resume`, `Process`,
`Press`, `keyInit`, `WxH`, `GetImage`, `SetActive`, `ActiveWindow`, `EnumWindows` from
the initial state the flag is 0 (running) or 1 (suspended); a `Pause()` that returns an error was called with the flag running and
leaves it running; a `Resume()` that returns an error was called with the flag suspended
and leaves it suspended; a successful `Pause()` from running leaves it suspended and a
successful `Resume()` from suspended leaves it running. -/
theorem C10_flag_changes_only_on_success (os : OS) (win : window) (w : World) :
    (∀ calls : List Call, (runCalls os calls World.init).gamestate = 0 ∨
      (runCalls os calls World.init).gamestate = 1) ∧
    (∀ err, (win.Pause os w).1 = some err →
      w.gamestate = 0 ∧ (win.Pause os w).2.gamestate = 0) ∧
    (∀ err, (win.Resume os w).1 = some err →
      w.gamestate = 1 ∧ (win.Resume os w).2.gamestate = 1) ∧
    (w.gamestate = 0 → (win.Pause os w).1 = none → (win.Pause os w).2.gamestate = 1) ∧
    (w.gamestate = 1 → (win.Resume os w).1 = none → (win.Resume os w).2.gamestate = 0) := by
  refine ⟨fun calls => runCalls_flag os calls World.init (Or.inl rfl), ?_, ?_, ?_, ?_⟩
  · intro err he
    by_cases h : w.gamestate = 0
    · rcases Pause_running os win w h with ⟨_, _, hg, _⟩ | ⟨hn, _, _⟩
      · exact ⟨h, hg⟩
      · rw [hn] at he
        simp at he
    · rw [Pause_not_running os win w h] at he
      simp at he
  · intro err he
    by_cases h : w.gamestate = 1
    · rcases Resume_suspended os win w h with ⟨_, _, hg⟩ | ⟨hn, _⟩
      · exact ⟨h, hg⟩
      · rw [hn] at he
        simp at he
    · rw [Resume_not_suspended os win w h] at he
      simp at he
  · intro h hn
    rcases Pause_running os win w h with ⟨_, he, _, _⟩ | ⟨_, hg, _⟩
    · rw [hn] at he
      simp at he
    · exact hg
  · intro h hn
    rcases Resume_suspended os win w h with ⟨_, he, _⟩ | ⟨_, hg⟩
    · rw [hn] at he
      simp at he
    · exact hg

/-- C10 at the initial state: a successful `Pause()` leaves the flag suspended, and a
`Pause()` that fails because the process handle does not open leaves it running. -/
theorem C10_flag_changes_only_on_success_witness :
    (win5.Pause osOk World.init).2.gamestate = 1 ∧
    (World.init.gamestate = 0 ∧
      (win5.Pause { osOk with openProcess := fun _ _ => 0 } World.init).2.gamestate = 0) :=
  ⟨(C10_flag_changes_only_on_success osOk win5 World.init).2.2.2.1 rfl rfl,
    (C10_flag_changes_only_on_success { osOk with openProcess := fun _ _ => 0 } win5
      World.init).2.1 (wrap "failed to open process" "failed to suspend process") rfl⟩

end Underbot
